import Mathlib

/-!
Shallow embedding of the story-index-to-test-program transformer of the
storybook test runner (source: `transformPlaywrightJson` and its helpers).

JS records iterated with `Object.values` / `Object.entries` are modelled as
association lists (`List (key × value)`) traversed in insertion order; the
babel AST nodes actually constructed by the code are modelled by the `Node`
inductive; the tag policy resolved by `getTagOptions` (from environment
variables, outside the provided sources) is passed as three explicit lists
of tags, exactly the three sets the transformer destructures.
-/

namespace TestRunner

/-- The `type` field of a v4 entry: `'story' | 'docs'`. -/
inductive EntryType where
  | story
  | docs
deriving DecidableEq, Repr

/-- `V4Entry`: `{ type?: 'story' | 'docs'; id; name; title; tags: string[] }`.
The `tags` field is declared in the TS type but the code reads it with
optional chaining (`story.tags?.includes(tag)`), so we model it as optional:
`none` is JS `undefined`. -/
structure V4Entry where
  type : Option EntryType := none
  id : String
  name : String
  title : String
  tags : Option (List String) := none
deriving DecidableEq, Repr

/-- `V3Story = Omit<V4Entry, 'type'> & { parameters?: ... }`; the `parameters`
bag is destructured away before use, so it is not modelled. -/
structure V3Story where
  id : String
  name : String
  title : String
  tags : Option (List String) := none
deriving DecidableEq, Repr

/-- The fragment of the babel AST the transformer constructs:
string literals, identifiers, call expressions, zero-parameter arrow
functions whose body is a block of statements, expression statements,
and a program node. -/
inductive Node where
  | str (s : String)
  | ident (n : String)
  | call (callee : Node) (args : List Node)
  | arrow (body : List Node)
  | exprStmt (e : Node)
  | program (body : List Node)

/-- Models `story.tags?.includes(tag)` coerced to a boolean: when the `tags`
field is absent the optional chain yields `undefined`, which is falsy in
every boolean position the transformer uses it in. -/
def tagsHas (story : V4Entry) (tag : String) : Bool :=
  match story.tags with
  | none => false
  | some ts => ts.contains tag

/-- Modelled from the spec: `testPrefixer` is imported from
`transformPlaywright`, which is not among the provided sources. Per the
spec, the synthesized test body passes the story's name, title and id
through as literal data and references the story by its stable id so the
downstream runtime can resolve and execute it. We model the expression of
the template's second statement (the part `makeTest` extracts) as one call
expression carrying the three string literals plus the story-export
identifier (which the code sets to the entry id). -/
def testPrefixer (name title id storyExport : String) : Node :=
  Node.call (Node.ident "testStory")
    [Node.str name, Node.str title, Node.str id, Node.ident storyExport]

/-- `makeTest`: wraps the prefixer expression in `it(...)` or `it.skip(...)`
with the test name `'play-test'` when `metaOrStoryPlay` holds (the source's
`!!metaOrStoryPlay` coercion is the `none ↦ false` case of `tagsHas` at the
call site), else `'smoke-test'`. -/
def makeTest (entry : V4Entry) (shouldSkip : Bool) (metaOrStoryPlay : Bool) : Node :=
  let stmtExpr := testPrefixer entry.name entry.title entry.id entry.id
  Node.exprStmt
    (Node.call (Node.ident (if shouldSkip then "it.skip" else "it"))
      [Node.str (if metaOrStoryPlay then "play-test" else "smoke-test"), stmtExpr])

/-- `makeDescribe(title, stmts)`: `describe(title, () => { stmts })`. -/
def makeDescribe (title : String) (stmts : List Node) : Node :=
  Node.exprStmt
    (Node.call (Node.ident "describe") [Node.str title, Node.arrow stmts])

/-- The `isIncluded` test inside the story filter:
`includeTags.length === 0 || includeTags.some((tag) => story.tags?.includes(tag))`. -/
def isIncluded (includeTags : List String) (story : V4Entry) : Bool :=
  includeTags.length == 0 || includeTags.any (fun tag => tagsHas story tag)

/-- The `isNotExcluded` test inside the story filter:
`excludeTags.every((tag) => !story.tags?.includes(tag))`. -/
def isNotExcluded (excludeTags : List String) (story : V4Entry) : Bool :=
  excludeTags.all (fun tag => !(tagsHas story tag))

/-- The story filter predicate applied to surviving (non-docs) stories:
`isIncluded && isNotExcluded`. -/
def storyFilter (includeTags excludeTags : List String) (story : V4Entry) : Bool :=
  isIncluded includeTags story && isNotExcluded excludeTags story

/-- The `.map` body of the transformer: computes `shouldSkip` from the skip
tags and builds `describe(story.name, [ makeTest ... ])` with
`metaOrStoryPlay = story.tags?.includes('play-fn')`. -/
def storyToTest (skipTags : List String) (story : V4Entry) : Node :=
  let shouldSkip := skipTags.any (fun tag => tagsHas story tag)
  makeDescribe story.name
    [makeTest story shouldSkip (tagsHas story "play-fn")]

/-- The ASCII characters replaced with a dash by `sanitize` from the external
`@storybook/csf` package (used by `toId`); modelled from its published
implementation, restricted to the ASCII part of its character class. -/
def csfSpecialChars : List Char :=
  [' ', '~', '!', '@', '#', '$', '%', '^', '&', '*', '(', ')', '_', '|',
   '+', '-', '=', '?', ';', ':', '\x27', '\x22', ',', '.', '<', '>',
   '\x7b', '\x7d', '[', ']', '\\', '/', '\x60']

/-- Collapse runs of dashes to a single dash (the csf dash-run replacement). -/
def collapseDashes : List Char → List Char
  | [] => []
  | [c] => [c]
  | c :: d :: rest =>
    if c = '-' && d = '-' then collapseDashes (d :: rest)
    else c :: collapseDashes (d :: rest)

/-- Strip leading and trailing dashes (the csf dash-trim replacements). -/
def trimDashes (cs : List Char) : List Char :=
  ((cs.dropWhile (fun c => c = '-')).reverse.dropWhile (fun c => c = '-')).reverse

/-- Model of `sanitize` from `@storybook/csf`: lowercase, replace special
characters with dashes, collapse dash runs, trim dashes. -/
def sanitize (s : String) : String :=
  String.mk (trimDashes (collapseDashes
    ((s.toList.map Char.toLower).map
      (fun c => if csfSpecialChars.contains c then '-' else c))))

/-- Model of `toId` from `@storybook/csf` as called with one argument:
`toId(title)` is `sanitize(title)` (no story-name suffix). -/
def toId (title : String) : String :=
  sanitize title

/-- One step of the `groupByTitleId` reduce:
`acc[titleId] = acc[titleId] || []; acc[titleId].push(entry)` on a JS
object in key-insertion order. -/
def insertGroup {T : Type} (acc : List (String × List T)) (key : String)
    (entry : T) : List (String × List T) :=
  if acc.any (fun p => p.1 == key) then
    acc.map (fun p => if p.1 == key then (p.1, p.2 ++ [entry]) else p)
  else
    acc ++ [(key, [entry])]

/-- `groupByTitleId`: group a list of entries by `toId(entry.title)`,
keys in first-appearance order. -/
def groupByTitleId {T : Type} (title : T → String) (entries : List T) :
    List (String × List T) :=
  entries.foldl (fun acc entry => insertGroup acc (toId (title entry)) entry) []

/-- `isV3DocsOnly`: `stories.length === 1 && stories[0].name === 'Page'`. -/
def isV3DocsOnly (stories : List V3Story) : Bool :=
  match stories with
  | [s] => s.name == "Page"
  | _ => false

/-- The per-story body of `v3TitleMapToV4TitleMap`: drop `parameters` and
add `type`, `'docs'` when the whole group is docs-only, else `'story'`. -/
def v3StoryToV4Entry (docsOnly : Bool) (s : V3Story) : V4Entry :=
  { type := some (if docsOnly then EntryType.docs else EntryType.story),
    id := s.id, name := s.name, title := s.title, tags := s.tags }

/-- `v3TitleMapToV4TitleMap`: convert each grouped v3 story list to v4
entries, keeping the group keys. -/
def v3TitleMapToV4TitleMap (m : List (String × List V3Story)) :
    List (String × List V4Entry) :=
  m.map (fun p => (p.1, p.2.map (v3StoryToV4Entry (isV3DocsOnly p.2))))

/-- Escape a character for a double-quoted string literal. -/
def escapeChar (c : Char) : String :=
  if c = '\\' then "\\\\"
  else if c = '\x22' then "\\\x22"
  else String.singleton c

/-- Escape a string for a double-quoted string literal. -/
def escapeString (s : String) : String :=
  String.join (s.toList.map escapeChar)

mutual

/-- Deterministic renderer standing in for babel `generate` on the `Node`
fragment the transformer builds. -/
def genNode : Node → String
  | Node.str s => "\x22" ++ escapeString s ++ "\x22"
  | Node.ident n => n
  | Node.call callee args => genNode callee ++ "(" ++ genArgs args ++ ")"
  | Node.arrow body => "() => \x7b" ++ genStmts body ++ "\x7d"
  | Node.exprStmt e => genNode e ++ ";"
  | Node.program body => genStmts body

/-- Render call arguments, comma-separated. -/
def genArgs : List Node → String
  | [] => ""
  | [a] => genNode a
  | a :: rest => genNode a ++ ", " ++ genArgs rest

/-- Render a statement list, newline-separated. -/
def genStmts : List Node → String
  | [] => ""
  | [s] => genNode s
  | s :: rest => genNode s ++ "\n" ++ genStmts rest

end

/-- The body of the transformer's reduce for one `[titleId, entries]` pair:
filter out docs entries; when any story survives, filter by the tag policy,
map to tests, wrap in `describe(stories[0].title, ...)`, render, and emit
`(titleId, code)`; when none survives, emit nothing. -/
def processGroup (includeTags excludeTags skipTags : List String)
    (titleId : String) (entries : List V4Entry) : Option (String × String) :=
  let stories := entries.filter (fun s => s.type ≠ some EntryType.docs)
  match stories with
  | [] => none
  | s0 :: _ =>
    let storyTests :=
      (stories.filter (storyFilter includeTags excludeTags)).map
        (storyToTest skipTags)
    let program := Node.program [makeDescribe s0.title storyTests]
    some (titleId, genNode program)

/-- The reduce over `Object.entries(titleIdToEntries)` building the
`titleIdToTest` mapping (JS object in key-insertion order). -/
def buildTitleIdToTest (includeTags excludeTags skipTags : List String)
    (groups : List (String × List V4Entry)) : List (String × String) :=
  groups.foldl
    (fun acc p =>
      match processGroup includeTags excludeTags skipTags p.1 p.2 with
      | some kv => acc ++ [kv]
      | none => acc)
    []

/-- The raw index document: a record with a version discriminant `v` and the
payload the code reads for each version (`stories` when `v = 3`, `entries`
when `v = 4`), each an id-keyed record modelled as an association list. -/
structure IndexJson where
  v : Nat
  stories : List (String × V3Story) := []
  entries : List (String × V4Entry) := []
deriving DecidableEq, Repr

/-- The normalized `titleIdToEntries` mapping the transformer computes for a
supported version (the `v = 3` branch normalizes through the v3→v4 title
map; otherwise the `v = 4` grouping is used). -/
def titleIdToEntriesOf (index : IndexJson) : List (String × List V4Entry) :=
  if index.v = 3 then
    v3TitleMapToV4TitleMap
      (groupByTitleId V3Story.title (index.stories.map Prod.snd))
  else
    groupByTitleId V4Entry.title (index.entries.map Prod.snd)

/-- `transformPlaywrightJson`: version dispatch, normalization, filtering and
synthesis. The thrown `Error` is modelled as `Except.error` carrying the
message with the offending discriminant. -/
def transformPlaywrightJson (index : IndexJson)
    (includeTags excludeTags skipTags : List String) :
    Except String (List (String × String)) :=
  if index.v = 3 then
    Except.ok (buildTitleIdToTest includeTags excludeTags skipTags
      (v3TitleMapToV4TitleMap
        (groupByTitleId V3Story.title (index.stories.map Prod.snd))))
  else if index.v = 4 then
    Except.ok (buildTitleIdToTest includeTags excludeTags skipTags
      (groupByTitleId V4Entry.title (index.entries.map Prod.snd)))
  else
    Except.error ("Unsupported version " ++ toString index.v)

/-! Concrete inputs used to instantiate the theorems below. -/

/-- A story tagged with both an include and an exclude candidate tag. -/
def wStory4 : V4Entry :=
  { id := "s4", name := "S4", title := "T4", tags := some ["a", "b"] }

/-- A story tagged with a skip candidate tag. -/
def wStory5 : V4Entry :=
  { id := "s5", name := "S5", title := "T5", tags := some ["sk"] }

/-- A story tagged with one tag. -/
def wStory7 : V4Entry :=
  { id := "s7", name := "S7", title := "T7", tags := some ["a"] }

/-- A v4 docs entry. -/
def wDocs8 : V4Entry :=
  { type := some EntryType.docs, id := "d8", name := "D8", title := "T8" }

/-- A v4 story entry in the same group as `wDocs8`. -/
def wStory8 : V4Entry :=
  { type := some EntryType.story, id := "s8", name := "S8", title := "T8" }

/-- A small v4 index. -/
def wIdx9 : IndexJson :=
  { v := 4,
    entries := [("a", { type := some EntryType.story, id := "a", name := "Primary",
                        title := "Button", tags := some ["play-fn"] })] }

/-- A story whose `tags` field is absent. -/
def wStory10 : V4Entry :=
  { id := "s10", name := "S10", title := "T10", tags := none }

/-- A v4 index whose single group holds only a docs entry. -/
def wIdx1 : IndexJson :=
  { v := 4,
    entries := [("d", { type := some EntryType.docs, id := "d", name := "D",
                        title := "Docs Only" })] }

/-- The sole entry of `wIdx1`. -/
def wDocs1 : V4Entry :=
  { type := some EntryType.docs, id := "d", name := "D", title := "Docs Only" }

/-- The story entry of `cexIdx1`, carrying the excluded tag `"x"`. -/
def cexStory1 : V4Entry :=
  { type := some EntryType.story, id := "x1", name := "A", title := "B",
    tags := some ["x"] }

/-- A v4 index whose single group holds one story tagged `"x"`. -/
def cexIdx1 : IndexJson :=
  { v := 4, entries := [("x1", cexStory1)] }

/-- The single `"Page"`-named story of `wIdx3`. -/
def wPage3 : V3Story :=
  { id := "p", name := "Page", title := "Intro", tags := some ["t"] }

/-- A v3 index whose single title group holds exactly one story named `"Page"`. -/
def wIdx3 : IndexJson :=
  { v := 3, stories := [("p", wPage3)] }

/-! Helper lemmas about grouping and the output mapping. -/

/-- The grouping step's key test agrees with key membership. -/
theorem insertGroup_any_iff {T : Type} (acc : List (String × List T))
    (key : String) :
    (acc.any (fun p => p.1 == key) = true) ↔ key ∈ acc.map Prod.fst := by
  rw [List.any_eq_true]
  constructor
  · rintro ⟨p, hp, hpk⟩
    have hk : p.1 = key := by simpa using hpk
    rw [← hk]
    exact List.mem_map_of_mem Prod.fst hp
  · intro hk
    rcases List.mem_map.mp hk with ⟨p, hp, hpk⟩
    exact ⟨p, hp, by simp [hpk]⟩

/-- Updating an existing group does not change the key list. -/
theorem map_fst_update {T : Type} (acc : List (String × List T)) (key : String)
    (e : T) :
    (acc.map (fun p => if p.1 == key then (p.1, p.2 ++ [e]) else p)).map
        Prod.fst = acc.map Prod.fst := by
  induction acc with
  | nil => rfl
  | cons a l ih =>
    simp only [List.map_cons]
    rw [ih]
    by_cases h : (a.1 == key) = true
    · rw [if_pos h]
    · rw [if_neg h]

/-- The keys after one grouping step. -/
theorem insertGroup_keys {T : Type} (acc : List (String × List T)) (key : String)
    (e : T) :
    (insertGroup acc key e).map Prod.fst =
      if key ∈ acc.map Prod.fst then acc.map Prod.fst
      else acc.map Prod.fst ++ [key] := by
  by_cases hk : key ∈ acc.map Prod.fst
  · rw [if_pos hk, insertGroup, if_pos ((insertGroup_any_iff acc key).mpr hk)]
    exact map_fst_update acc key e
  · rw [if_neg hk, insertGroup,
      if_neg (fun hc => hk ((insertGroup_any_iff acc key).mp hc))]
    simp

/-- One grouping step preserves distinctness of the keys. -/
theorem insertGroup_keys_nodup {T : Type} (acc : List (String × List T))
    (key : String) (e : T) (h : (acc.map Prod.fst).Nodup) :
    ((insertGroup acc key e).map Prod.fst).Nodup := by
  rw [insertGroup_keys]
  by_cases hk : key ∈ acc.map Prod.fst
  · rwa [if_pos hk]
  · rw [if_neg hk]
    simp [List.nodup_append, h, hk]

/-- The grouping fold preserves distinctness of the keys. -/
theorem groupBy_fold_keys_nodup {T : Type} (title : T → String)
    (entries : List T) :
    ∀ acc : List (String × List T), (acc.map Prod.fst).Nodup →
      (((entries.foldl
          (fun acc entry => insertGroup acc (toId (title entry)) entry)
          acc)).map Prod.fst).Nodup := by
  induction entries with
  | nil => intro acc h; simpa using h
  | cons a l ih =>
    intro acc h
    exact ih _ (insertGroup_keys_nodup acc (toId (title a)) a h)

/-- The keys of `groupByTitleId` are distinct. -/
theorem groupByTitleId_keys_nodup {T : Type} (title : T → String)
    (entries : List T) :
    ((groupByTitleId title entries).map Prod.fst).Nodup :=
  groupBy_fold_keys_nodup title entries [] (by simp)

/-- In an association list with distinct keys, a key determines its value. -/
theorem nodup_keys_unique {β : Type} (l : List (String × β))
    (h : (l.map Prod.fst).Nodup) (k : String) (a b : β)
    (ha : (k, a) ∈ l) (hb : (k, b) ∈ l) : a = b := by
  induction l with
  | nil => cases ha
  | cons x xs ih =>
    rw [List.map_cons, List.nodup_cons] at h
    rcases List.mem_cons.mp ha with h1 | ha'
    · rcases List.mem_cons.mp hb with h2 | hb'
      · exact congrArg Prod.snd (h1.trans h2.symm)
      · exfalso
        apply h.1
        rw [← h1]
        exact List.mem_map.mpr ⟨(k, b), hb', rfl⟩
    · rcases List.mem_cons.mp hb with h2 | hb'
      · exfalso
        apply h.1
        rw [← h2]
        exact List.mem_map.mpr ⟨(k, a), ha', rfl⟩
      · exact ih h.2 ha' hb'

/-- The mapping-building reduce is a `filterMap` over the groups. -/
theorem build_eq_filterMap (includeTags excludeTags skipTags : List String)
    (groups : List (String × List V4Entry)) :
    buildTitleIdToTest includeTags excludeTags skipTags groups =
      groups.filterMap
        (fun p => processGroup includeTags excludeTags skipTags p.1 p.2) := by
  suffices haux : ∀ (gs : List (String × List V4Entry))
      (acc : List (String × String)),
      gs.foldl
          (fun acc p =>
            match processGroup includeTags excludeTags skipTags p.1 p.2 with
            | some kv => acc ++ [kv]
            | none => acc)
          acc =
        acc ++ gs.filterMap
          (fun p => processGroup includeTags excludeTags skipTags p.1 p.2) by
    simpa [buildTitleIdToTest] using haux groups []
  intro gs
  induction gs with
  | nil => intro acc; simp
  | cons g l ih =>
    intro acc
    cases hpg : processGroup includeTags excludeTags skipTags g.1 g.2 with
    | none => simp [List.filterMap_cons, hpg, ih]
    | some kv => simp [List.filterMap_cons, hpg, ih]

/-- A group is emitted with its own key. -/
theorem processGroup_fst (includeTags excludeTags skipTags : List String)
    (titleId : String) (entries : List V4Entry) (kv : String × String)
    (h : processGroup includeTags excludeTags skipTags titleId entries =
      some kv) : kv.1 = titleId := by
  rw [processGroup] at h
  split at h
  · cases h
  · cases h
    rfl

/-- A group is omitted exactly when its docs filter leaves nothing. -/
theorem processGroup_none_iff (includeTags excludeTags skipTags : List String)
    (titleId : String) (entries : List V4Entry) :
    processGroup includeTags excludeTags skipTags titleId entries = none ↔
      entries.filter (fun s => s.type ≠ some EntryType.docs) = [] := by
  rcases hf : entries.filter (fun s => s.type ≠ some EntryType.docs) with
    _ | ⟨s0, rest⟩
  · simp only [processGroup]
    rw [hf]
    simp [hf]
  · simp only [processGroup]
    rw [hf]
    simp [hf]

/-- A key appears in the built mapping exactly when its group retains a
non-docs entry. -/
theorem mem_keys_build (includeTags excludeTags skipTags : List String)
    (groups : List (String × List V4Entry)) (titleId : String) :
    titleId ∈ (buildTitleIdToTest includeTags excludeTags skipTags groups).map
        Prod.fst ↔
      ∃ g, (titleId, g) ∈ groups ∧
        g.filter (fun s => s.type ≠ some EntryType.docs) ≠ [] := by
  rw [build_eq_filterMap]
  constructor
  · intro h
    rcases List.mem_map.mp h with ⟨kv, hkv, hfst⟩
    rcases List.mem_filterMap.mp hkv with ⟨p, hp, hpg⟩
    have hk := processGroup_fst includeTags excludeTags skipTags p.1 p.2 kv hpg
    refine ⟨p.2, ?_, ?_⟩
    · have hp1 : p.1 = titleId := by rw [← hfst, hk]
      rw [← hp1]
      exact hp
    · intro hnil
      rw [(processGroup_none_iff includeTags excludeTags skipTags p.1
        p.2).mpr hnil] at hpg
      cases hpg
  · rintro ⟨g, hg, hne⟩
    obtain ⟨kv, hkv⟩ :
        ∃ kv, processGroup includeTags excludeTags skipTags titleId g =
          some kv := by
      cases hpg : processGroup includeTags excludeTags skipTags titleId g with
      | none =>
        exact absurd
          ((processGroup_none_iff includeTags excludeTags skipTags titleId
            g).mp hpg) hne
      | some kv => exact ⟨kv, rfl⟩
    have hfst :=
      processGroup_fst includeTags excludeTags skipTags titleId g kv hkv
    exact List.mem_map.mpr
      ⟨kv, List.mem_filterMap.mpr ⟨(titleId, g), hg, hkv⟩, hfst⟩

/-- The v3 → v4 normalization keeps the group keys. -/
theorem v3map_keys (m : List (String × List V3Story)) :
    (v3TitleMapToV4TitleMap m).map Prod.fst = m.map Prod.fst := by
  simp [v3TitleMapToV4TitleMap, List.map_map, Function.comp]

/-- The normalized mapping has distinct keys for every index. -/
theorem titleGroups_keys_nodup (index : IndexJson) :
    ((titleIdToEntriesOf index).map Prod.fst).Nodup := by
  unfold titleIdToEntriesOf
  by_cases h : index.v = 3
  · rw [if_pos h, v3map_keys]
    exact groupByTitleId_keys_nodup _ _
  · rw [if_neg h]
    exact groupByTitleId_keys_nodup _ _

/-- On a v3 index the transformer succeeds with the built mapping. -/
theorem transform_v3 (index : IndexJson) (h : index.v = 3)
    (includeTags excludeTags skipTags : List String) :
    transformPlaywrightJson index includeTags excludeTags skipTags =
      Except.ok (buildTitleIdToTest includeTags excludeTags skipTags
        (titleIdToEntriesOf index)) := by
  simp [transformPlaywrightJson, titleIdToEntriesOf, h]

/-- On a v4 index the transformer succeeds with the built mapping. -/
theorem transform_v4 (index : IndexJson) (h : index.v = 4)
    (includeTags excludeTags skipTags : List String) :
    transformPlaywrightJson index includeTags excludeTags skipTags =
      Except.ok (buildTitleIdToTest includeTags excludeTags skipTags
        (titleIdToEntriesOf index)) := by
  have h3 : index.v ≠ 3 := by rw [h]; decide
  simp [transformPlaywrightJson, titleIdToEntriesOf, h3, h]

/-! Claim theorems. -/

/-- C2: for every input index whose version discriminant `v` is neither 3 nor
4, `transformPlaywrightJson` fails with an unsupported-version error whose
message carries the offending discriminant value, and returns no partial
output mapping (the `error` result carries no mapping at all). -/
theorem unsupported_version_rejected (index : IndexJson)
    (includeTags excludeTags skipTags : List String)
    (h3 : index.v ≠ 3) (h4 : index.v ≠ 4) :
    transformPlaywrightJson index includeTags excludeTags skipTags =
      Except.error ("Unsupported version " ++ toString index.v) := by
  simp [transformPlaywrightJson, h3, h4]

theorem unsupported_version_rejected_w :
    transformPlaywrightJson { v := 5 } [] [] [] =
      Except.error ("Unsupported version " ++ toString (5 : Nat)) :=
  unsupported_version_rejected { v := 5 } [] [] [] (by decide) (by decide)

/-- C9: the transformation is deterministic — identical `(index, policy)`
inputs yield identical output mappings (same keys, identical program text);
the embedded transformer is a pure function of its arguments. -/
theorem transform_deterministic (i1 i2 : IndexJson)
    (inc1 inc2 exc1 exc2 skp1 skp2 : List String)
    (hi : i1 = i2) (hinc : inc1 = inc2) (hexc : exc1 = exc2)
    (hskp : skp1 = skp2) :
    transformPlaywrightJson i1 inc1 exc1 skp1 =
      transformPlaywrightJson i2 inc2 exc2 skp2 := by
  subst hi; subst hinc; subst hexc; subst hskp; rfl

theorem transform_deterministic_w :
    transformPlaywrightJson wIdx9 [] [] [] =
      transformPlaywrightJson wIdx9 [] [] [] :=
  transform_deterministic wIdx9 wIdx9 [] [] [] [] [] [] rfl rfl rfl rfl

/-- C4: a non-docs entry whose tag set intersects the exclude set fails the
story filter — regardless of the include set — and is therefore absent from
the filtered story list of any group: exclusion overrides inclusion. -/
theorem exclude_tag_vetoes (includeTags excludeTags : List String)
    (story : V4Entry)
    (h : excludeTags.any (fun tag => tagsHas story tag) = true) :
    storyFilter includeTags excludeTags story = false ∧
      ∀ entries : List V4Entry,
        story ∉ entries.filter (storyFilter includeTags excludeTags) := by
  have hexc : isNotExcluded excludeTags story = false := by
    rcases List.any_eq_true.mp h with ⟨t, ht, htags⟩
    rw [← Bool.not_eq_true, isNotExcluded, List.all_eq_true]
    intro hall
    have := hall t ht
    simp [htags] at this
  refine ⟨by simp [storyFilter, hexc], ?_⟩
  intro entries hmem
  have := (List.mem_filter.mp hmem).2
  simp [storyFilter, hexc] at this

theorem exclude_tag_vetoes_w :
    storyFilter ["a"] ["b"] wStory4 = false ∧
      wStory4 ∉ [wStory4].filter (storyFilter ["a"] ["b"]) := by
  have h := exclude_tag_vetoes ["a"] ["b"] wStory4 (by decide)
  exact ⟨h.1, h.2 [wStory4]⟩

/-- C5: an entry passing the inclusion/exclusion filter whose tag set
intersects the skip set still yields a test case in its group's mapped test
list, and that test is synthesized in disabled form: an `it.skip` call
rather than an `it` call. -/
theorem skip_tag_marks_not_drops (includeTags excludeTags skipTags : List String)
    (story : V4Entry)
    (hpass : storyFilter includeTags excludeTags story = true)
    (hskip : skipTags.any (fun tag => tagsHas story tag) = true) :
    (∀ stories : List V4Entry, story ∈ stories →
        storyToTest skipTags story ∈
          (stories.filter (storyFilter includeTags excludeTags)).map
            (storyToTest skipTags)) ∧
      storyToTest skipTags story =
        makeDescribe story.name
          [Node.exprStmt
            (Node.call (Node.ident "it.skip")
              [Node.str
                 (if tagsHas story "play-fn" then "play-test" else "smoke-test"),
               testPrefixer story.name story.title story.id story.id])] := by
  constructor
  · intro stories hmem
    exact List.mem_map_of_mem _ (List.mem_filter.mpr ⟨hmem, hpass⟩)
  · simp [storyToTest, makeTest, hskip]

theorem skip_tag_marks_not_drops_w :
    (storyToTest ["sk"] wStory5 ∈
        ([wStory5].filter (storyFilter [] [])).map (storyToTest ["sk"])) ∧
      storyToTest ["sk"] wStory5 =
        makeDescribe wStory5.name
          [Node.exprStmt
            (Node.call (Node.ident "it.skip")
              [Node.str
                 (if tagsHas wStory5 "play-fn" then "play-test" else "smoke-test"),
               testPrefixer wStory5.name wStory5.title wStory5.id wStory5.id])] := by
  have h := skip_tag_marks_not_drops [] [] ["sk"] wStory5 (by decide) (by decide)
  exact ⟨h.1 [wStory5] (by simp), h.2⟩

/-- C6: every generated test case is named `"play-test"` exactly when the
entry's tag set contains the play-behavior marker tag `"play-fn"`, else
`"smoke-test"`; and its body is a call carrying the story's name, title and
id as string-literal data. -/
theorem test_name_and_literal_payload (skipTags : List String) (story : V4Entry) :
    storyToTest skipTags story =
      makeDescribe story.name
        [Node.exprStmt
          (Node.call
            (Node.ident
              (if skipTags.any (fun tag => tagsHas story tag) then "it.skip" else "it"))
            [Node.str
               (if tagsHas story "play-fn" then "play-test" else "smoke-test"),
             testPrefixer story.name story.title story.id story.id])] ∧
      ∃ callee args,
        testPrefixer story.name story.title story.id story.id =
            Node.call callee args ∧
          Node.str story.name ∈ args ∧ Node.str story.title ∈ args ∧
          Node.str story.id ∈ args := by
  refine ⟨by simp [storyToTest, makeTest], ?_⟩
  exact ⟨Node.ident "testStory", _, rfl, by simp [testPrefixer],
    by simp [testPrefixer], by simp [testPrefixer]⟩

/-- C7: with an empty include set every non-docs entry passes the inclusion
stage unconditionally; with a non-empty include set an entry passes the
inclusion stage iff its tag set has a non-empty intersection with it. -/
theorem inclusion_stage_semantics (includeTags : List String) (story : V4Entry) :
    (includeTags = [] → isIncluded includeTags story = true) ∧
      (includeTags ≠ [] →
        (isIncluded includeTags story = true ↔
          ∃ tag, tag ∈ includeTags ∧ tagsHas story tag = true)) := by
  constructor
  · intro h; subst h; rfl
  · intro hne
    match includeTags, hne with
    | t :: ts, _ => simp [isIncluded, List.any_eq_true]

theorem inclusion_stage_semantics_w :
    isIncluded [] wStory7 = true ∧ isIncluded ["a"] wStory7 = true :=
  ⟨(inclusion_stage_semantics [] wStory7).1 rfl,
   ((inclusion_stage_semantics ["a"] wStory7).2 (by simp)).mpr
     ⟨"a", by simp, by decide⟩⟩

/-- C8: a v4 entry of type `docs` never produces a test case: removing it
from a group leaves the group's processing result (key and program text)
unchanged, even when other entries of the group do produce test cases. -/
theorem v4_docs_entry_no_test (includeTags excludeTags skipTags : List String)
    (titleId : String) (e : V4Entry) (es1 es2 : List V4Entry)
    (h : e.type = some EntryType.docs) :
    processGroup includeTags excludeTags skipTags titleId (es1 ++ e :: es2) =
      processGroup includeTags excludeTags skipTags titleId (es1 ++ es2) := by
  have hf : (es1 ++ e :: es2).filter (fun s => s.type ≠ some EntryType.docs) =
      (es1 ++ es2).filter (fun s => s.type ≠ some EntryType.docs) := by
    simp [List.filter_append, List.filter_cons, h]
  simp only [processGroup]
  rw [hf]

theorem v4_docs_entry_no_test_w :
    processGroup [] [] [] "t8" ([wStory8] ++ wDocs8 :: []) =
      processGroup [] [] [] "t8" ([wStory8] ++ []) :=
  v4_docs_entry_no_test [] [] [] "t8" wDocs8 [wStory8] [] rfl

/-- C10: an entry with an absent `tags` field behaves exactly as if its tag
set were empty: every tag test is false, it passes inclusion precisely when
the include set is empty, it is never excluded, it is never skip-marked, its
test case is a plain `it` call named `"smoke-test"`, and every pipeline stage
agrees with the same entry carrying `tags = []`; no error is raised. -/
theorem absent_tags_as_empty (story : V4Entry) (h : story.tags = none)
    (includeTags excludeTags skipTags : List String) :
    (∀ tag, tagsHas story tag = false) ∧
      isIncluded includeTags story = includeTags.isEmpty ∧
      isNotExcluded excludeTags story = true ∧
      storyFilter includeTags excludeTags story =
        storyFilter includeTags excludeTags { story with tags := some [] } ∧
      storyToTest skipTags story =
        makeDescribe story.name
          [Node.exprStmt
            (Node.call (Node.ident "it")
              [Node.str "smoke-test",
               testPrefixer story.name story.title story.id story.id])] ∧
      storyToTest skipTags story =
        storyToTest skipTags { story with tags := some [] } := by
  have htags : ∀ tag, tagsHas story tag = false := fun tag => by simp [tagsHas, h]
  have htags0 : ∀ tag, tagsHas { story with tags := some [] } tag = false :=
    fun tag => by simp [tagsHas]
  have hany : ∀ l : List String, l.any (fun tag => tagsHas story tag) = false := by
    intro l; induction l with
    | nil => rfl
    | cons a l ih => simp [htags, ih]
  have hany0 : ∀ l : List String,
      l.any (fun tag => tagsHas { story with tags := some [] } tag) = false := by
    intro l; induction l with
    | nil => rfl
    | cons a l ih => simp [htags0, ih]
  have hinc : isIncluded includeTags story = includeTags.isEmpty := by
    cases includeTags with
    | nil => rfl
    | cons a l => simp [isIncluded, htags]
  have hexc : isNotExcluded excludeTags story = true := by
    rw [isNotExcluded, List.all_eq_true]; intro t _; simp [htags]
  refine ⟨htags, hinc, hexc, ?_, ?_, ?_⟩
  · have hinc0 : isIncluded includeTags { story with tags := some [] } =
        includeTags.isEmpty := by
      cases includeTags with
      | nil => rfl
      | cons a l => simp [isIncluded, htags0]
    have hexc0 : isNotExcluded excludeTags { story with tags := some [] } = true := by
      rw [isNotExcluded, List.all_eq_true]; intro t _; simp [htags0]
    rw [storyFilter, storyFilter, hinc, hexc, hinc0, hexc0]
  · simp [storyToTest, makeTest, hany, htags]
  · simp [storyToTest, makeTest, hany, hany0, htags, htags0]

theorem absent_tags_as_empty_w :
    (∀ tag, tagsHas wStory10 tag = false) ∧
      isIncluded ["a"] wStory10 = (["a"] : List String).isEmpty ∧
      isNotExcluded ["b"] wStory10 = true ∧
      storyFilter ["a"] ["b"] wStory10 =
        storyFilter ["a"] ["b"] { wStory10 with tags := some [] } ∧
      storyToTest ["c"] wStory10 =
        makeDescribe wStory10.name
          [Node.exprStmt
            (Node.call (Node.ident "it")
              [Node.str "smoke-test",
               testPrefixer wStory10.name wStory10.title wStory10.id wStory10.id])] ∧
      storyToTest ["c"] wStory10 =
        storyToTest ["c"] { wStory10 with tags := some [] } :=
  absent_tags_as_empty wStory10 rfl ["a"] ["b"] ["c"]

/-- C1 counterexample: in `cexIdx1` the only entry of group `"b"` is filtered
out by the tag exclude policy (`storyFilter` rejects it), yet the output
mapping still contains the key `"b"`, bound to an empty generated test
suite — refuting the claim that a group all of whose entries were filtered
out by docs removal *or by the tag include/exclude policy* produces no key. -/
theorem tag_filtered_group_still_keyed :
    storyFilter [] ["x"] cexStory1 = false ∧
      transformPlaywrightJson cexIdx1 [] ["x"] [] =
        Except.ok [("b", "describe(\"B\", () => \x7b\x7d);")] :=
  ⟨rfl, rfl⟩

/-- C1 (amended): a component group produces no key in the output mapping
exactly when the docs filter removes all of its entries; in particular a
group whose entries were all removed as docs is omitted, while tag
include/exclude filtering alone never removes a group's key. -/
theorem empty_group_key_omission (index : IndexJson)
    (includeTags excludeTags skipTags : List String)
    (m : List (String × String))
    (hok : transformPlaywrightJson index includeTags excludeTags skipTags =
      Except.ok m)
    (titleId : String) (g : List V4Entry)
    (hg : (titleId, g) ∈ titleIdToEntriesOf index) :
    g.filter (fun s => s.type ≠ some EntryType.docs) = [] ↔
      titleId ∉ m.map Prod.fst := by
  have hv : index.v = 3 ∨ index.v = 4 := by
    by_contra hc
    push_neg at hc
    have herr : transformPlaywrightJson index includeTags excludeTags skipTags =
        Except.error ("Unsupported version " ++ toString index.v) := by
      simp [transformPlaywrightJson, hc.1, hc.2]
    rw [herr] at hok
    cases hok
  have hm : m = buildTitleIdToTest includeTags excludeTags skipTags
      (titleIdToEntriesOf index) := by
    rcases hv with h3 | h4
    · have ht := transform_v3 index h3 includeTags excludeTags skipTags
      rw [ht] at hok
      exact (Except.ok.inj hok).symm
    · have ht := transform_v4 index h4 includeTags excludeTags skipTags
      rw [ht] at hok
      exact (Except.ok.inj hok).symm

  subst hm
  constructor
  · intro hnil hmem
    rcases (mem_keys_build includeTags excludeTags skipTags _ titleId).mp hmem
      with ⟨g', hg', hne⟩
    have hgg : g' = g :=
      nodup_keys_unique _ (titleGroups_keys_nodup index) titleId g' g hg' hg
    rw [hgg] at hne
    exact hne hnil
  · intro hnot
    by_contra hne
    exact hnot ((mem_keys_build includeTags excludeTags skipTags _ titleId).mpr
      ⟨g, hg, hne⟩)

theorem empty_group_key_omission_w :
    [wDocs1].filter (fun s => s.type ≠ some EntryType.docs) = [] ↔
      "docs-only" ∉ ([] : List (String × String)).map Prod.fst :=
  empty_group_key_omission wIdx1 [] [] [] [] rfl "docs-only" [wDocs1] (by decide)

/-- C3: for every version-3 index and every policy, a title group holding
exactly one story whose display name is exactly the string `"Page"` is
classified docs-only by the v3 inference and contributes no key to the
output mapping, regardless of its tags or the policy. -/
theorem v3_single_page_group_omitted (index : IndexJson) (h3 : index.v = 3)
    (includeTags excludeTags skipTags : List String)
    (m : List (String × String))
    (hok : transformPlaywrightJson index includeTags excludeTags skipTags =
      Except.ok m)
    (titleId : String) (s : V3Story)
    (hg : (titleId, [s]) ∈
      groupByTitleId V3Story.title (index.stories.map Prod.snd))
    (hname : s.name = "Page") :
    titleId ∉ m.map Prod.fst := by
  have hm : m = buildTitleIdToTest includeTags excludeTags skipTags
      (titleIdToEntriesOf index) := by
    have ht := transform_v3 index h3 includeTags excludeTags skipTags
    rw [ht] at hok
    exact (Except.ok.inj hok).symm
  subst hm
  have hdocs : isV3DocsOnly [s] = true := by simp [isV3DocsOnly, hname]
  have hg4 : (titleId, [v3StoryToV4Entry true s]) ∈ titleIdToEntriesOf index := by
    unfold titleIdToEntriesOf
    rw [if_pos h3]
    unfold v3TitleMapToV4TitleMap
    refine List.mem_map.mpr ⟨(titleId, [s]), hg, ?_⟩
    simp [hdocs]
  intro hmem
  rcases (mem_keys_build includeTags excludeTags skipTags _ titleId).mp hmem
    with ⟨g', hg', hne⟩
  have hgg : g' = [v3StoryToV4Entry true s] :=
    nodup_keys_unique _ (titleGroups_keys_nodup index) titleId g' _ hg' hg4
  apply hne
  rw [hgg]
  simp [v3StoryToV4Entry, List.filter_cons]

theorem v3_single_page_group_omitted_w :
    "intro" ∉ ([] : List (String × String)).map Prod.fst :=
  v3_single_page_group_omitted wIdx3 rfl [] [] [] [] rfl "intro" wPage3
    (by decide) rfl

end TestRunner
